import Mathlib

/-!
Shallow embedding of the path-tracing renderer of this repository.

The fragment shader (TAA variant) provides the sampler, the intersection
engine, the scene, the path integrator and the camera-ray generator; the
tonemap shader provides the ACES tonemap stage; the canvas component
provides the per-tick frame loop with its accumulation-reset logic.

Machine integers of the shader's RNG (32-bit signed ints with wrap-around)
are modelled as natural numbers reduced modulo 2^32 (the bit pattern);
GLSL floats are modelled as rationals where all arithmetic in the source
is rational, and as real numbers where the source uses sqrt, exp or
trigonometric functions.
-/

namespace Renderer

/-! ### Sampler: 32-bit LCG (`initRandomSeed`, `cycleRandomSeed`,
`randInt`, `randFloat` of the fragment shader) -/

/-- Modulus of 32-bit integer wrap-around. -/
def uint32Mod : ℕ := 4294967296

/-- `randomSeed = randomSeed * 1664525 + 1013904223` with 32-bit wrap. -/
def cycleRandomSeed (s : ℕ) : ℕ := (s * 1664525 + 1013904223) % uint32Mod

/-- Largest signed short, the reduction constant of the RNG. -/
def maxSignedShort : ℕ := 32767

/-- `randInt()`: cycle the seed, mask to the non-negative low 31 bits,
reduce modulo `maxSignedShort + 1`.  Returns the drawn integer; the new
state is `cycleRandomSeed s`. -/
def randIntOf (s : ℕ) : ℕ := (cycleRandomSeed s &&& 0x7FFFFFFF) % (maxSignedShort + 1)

/-- `randFloat() = float(randInt()) / float(maxSignedShort)`. -/
def randFloatOf (s : ℕ) : ℚ := (randIntOf s : ℚ) / (maxSignedShort : ℚ)

/-- `initRandomSeed()`: seed from pixel coordinate and scaled time,
`int(gl_FragCoord.x) * 1973 + int(gl_FragCoord.y) * 9277 + int(iTime * 26699.0)`,
as a 32-bit pattern. -/
def initRandomSeed (px py : ℕ) (tScaled : ℤ) : ℕ :=
  (((px : ℤ) * 1973 + (py : ℤ) * 9277 + tScaled) % (uint32Mod : ℤ)).toNat

/-- RNG state after `n` cycles. -/
def rngStateAt (s : ℕ) : ℕ → ℕ
  | 0 => s
  | n + 1 => cycleRandomSeed (rngStateAt s n)

/-- The `n`-th `randInt()` output of a run started in state `s`. -/
def nthRandInt (s n : ℕ) : ℕ := randIntOf (rngStateAt s n)

/-- The `n`-th `randFloat()` output of a run started in state `s`. -/
def nthRandFloat (s n : ℕ) : ℚ := randFloatOf (rngStateAt s n)

/-! ### Accumulation fold (`main` of the fragment shader) and the
per-tick frame loop (`frame` of the canvas component) -/

/-- One channel of
`newAverage = (prevSample * float(iFrameIndex) + currSample) / (float(iFrameIndex) + 1.0)`. -/
def accumulate (frameIndex : ℕ) (prevSample currSample : ℚ) : ℚ :=
  (prevSample * (frameIndex : ℚ) + currSample) / ((frameIndex : ℚ) + 1)

/-- Camera position as rational triple (frame-loop model). -/
structure Vec3Q where
  x : ℚ
  y : ℚ
  z : ℚ
deriving DecidableEq

/-- Camera orientation quaternion as rational quadruple (frame-loop model). -/
structure Vec4Q where
  x : ℚ
  y : ℚ
  z : ℚ
  w : ℚ
deriving DecidableEq

/-- State carried across ticks by the frame loop: the accumulation frame
index and the camera pose together with the pose recorded at the last
pose-change check. -/
structure TickState where
  frameIdx : ℕ
  camPos : Vec3Q
  camRot : Vec4Q
  prevCamPos : Vec3Q
  prevCamRot : Vec4Q
deriving DecidableEq

/-- Per-tick external input: whether the render target was resized this
tick, and the movement delta (present exactly when movement keys are
pressed). -/
structure TickInput where
  sizeChanged : Bool
  deltaMove : Option Vec3Q
deriving DecidableEq

/-- Camera position after the movement-handling step of `frame`. -/
def movedCamPos (st : TickState) (inp : TickInput) : Vec3Q :=
  match inp.deltaMove with
  | none => st.camPos
  | some d => ⟨st.camPos.x + d.x, st.camPos.y + d.y, st.camPos.z + d.z⟩

/-- Frame index after the resize and movement steps of `frame` (both
reset it to 0). -/
def frameIdxAfterMove (st : TickState) (inp : TickInput) : ℕ :=
  let afterResize := if inp.sizeChanged then 0 else st.frameIdx
  match inp.deltaMove with
  | none => afterResize
  | some _ => 0

/-- The pose-change test of `frame`: camera transform differs from the
recorded previous transform. -/
def poseChangedB (st : TickState) (inp : TickInput) : Bool :=
  decide (movedCamPos st inp ≠ st.prevCamPos) || decide (st.camRot ≠ st.prevCamRot)

/-- The frame index actually used by this tick's accumulation pass
(the value bound to `iFrameIndex`). -/
def tickUsedIdx (st : TickState) (inp : TickInput) : ℕ :=
  if poseChangedB st inp then 0 else frameIdxAfterMove st inp

/-- One tick of `frame`: resize check, movement, pose-change check,
render with `tickUsedIdx`, then `frameIdx.current++`. -/
def tick (st : TickState) (inp : TickInput) : TickState :=
  { frameIdx := tickUsedIdx st inp + 1
    camPos := movedCamPos st inp
    camRot := st.camRot
    prevCamPos := if poseChangedB st inp then movedCamPos st inp else st.prevCamPos
    prevCamRot := if poseChangedB st inp then st.camRot else st.prevCamRot }

/-! ### Real-valued vectors (GLSL `vec3` / `vec4`) -/

/-- GLSL `vec3` over the reals. -/
structure Vec3 where
  x : ℝ
  y : ℝ
  z : ℝ

/-- GLSL `vec4` over the reals (quaternion as `(x, y, z, w)`). -/
structure Vec4 where
  x : ℝ
  y : ℝ
  z : ℝ
  w : ℝ

namespace Vec3

noncomputable def add (a b : Vec3) : Vec3 := ⟨a.x + b.x, a.y + b.y, a.z + b.z⟩

noncomputable def sub (a b : Vec3) : Vec3 := ⟨a.x - b.x, a.y - b.y, a.z - b.z⟩

noncomputable def neg (a : Vec3) : Vec3 := ⟨-a.x, -a.y, -a.z⟩

/-- Scalar times vector. -/
noncomputable def smul (r : ℝ) (a : Vec3) : Vec3 := ⟨r * a.x, r * a.y, r * a.z⟩

/-- Componentwise product (GLSL `*` on `vec3`). -/
noncomputable def cmul (a b : Vec3) : Vec3 := ⟨a.x * b.x, a.y * b.y, a.z * b.z⟩

/-- Vector divided by scalar. -/
noncomputable def divs (a : Vec3) (r : ℝ) : Vec3 := ⟨a.x / r, a.y / r, a.z / r⟩

noncomputable def dot (a b : Vec3) : ℝ := a.x * b.x + a.y * b.y + a.z * b.z

noncomputable def cross (a b : Vec3) : Vec3 :=
  ⟨a.y * b.z - a.z * b.y, a.z * b.x - a.x * b.z, a.x * b.y - a.y * b.x⟩

/-- GLSL `length`. -/
noncomputable def len (a : Vec3) : ℝ := Real.sqrt (dot a a)

/-- GLSL `normalize`: `v / length(v)`. -/
noncomputable def normalize (a : Vec3) : Vec3 := divs a (len a)

/-- GLSL `reflect(I, N) = I - 2 * dot(N, I) * N`. -/
noncomputable def reflectV (i n : Vec3) : Vec3 := sub i (smul (2 * dot n i) n)

def zero : Vec3 := ⟨0, 0, 0⟩

def one : Vec3 := ⟨1, 1, 1⟩

end Vec3

/-- The `xyz` swizzle of a `vec4`. -/
noncomputable def Vec4.xyz (q : Vec4) : Vec3 := ⟨q.x, q.y, q.z⟩

open Vec3 in
/-- `rotateByQuaternion` of the fragment shader. -/
noncomputable def rotateByQuaternion (v : Vec3) (q : Vec4) : Vec3 :=
  let t := smul 2 (cross q.xyz v)
  add (add v (smul q.w t)) (cross q.xyz t)

/-! ### Scene structs and materials (TAA fragment shader) -/

structure Material where
  emissive : Vec3
  diffuse : Vec3
  specular : Vec3
  glossiness : ℝ

structure Sphere where
  position : Vec3
  radius : ℝ
  material : Material

structure Plane where
  normal : Vec3
  d : ℝ
  material : Material

structure Ray where
  origin : Vec3
  direction : Vec3

structure HitInfo where
  hit : Bool
  t : ℝ
  position : Vec3
  normal : Vec3
  material : Material

/-- `NewLight`: emissive material with zero diffuse and specular. -/
def NewLight (intensity : Vec3) : Material :=
  { emissive := intensity, diffuse := Vec3.zero, specular := Vec3.zero, glossiness := 1 }

/-- `NewOrangePlastic`. -/
noncomputable def NewOrangePlastic : Material :=
  { emissive := Vec3.zero, diffuse := ⟨1, 0.5, 0⟩, specular := ⟨0.5, 0.5, 0.5⟩, glossiness := 50 }

/-- `NewMirror`. -/
def NewMirror : Material :=
  { emissive := Vec3.zero, diffuse := Vec3.zero, specular := Vec3.one, glossiness := 1000 }

/-- Material of the Cornell-box walls in `loadScene` (zero emissive and
specular, glossiness 1, given diffuse colour). -/
def wallMaterial (diffuse : Vec3) : Material :=
  { emissive := Vec3.zero, diffuse := diffuse, specular := Vec3.zero, glossiness := 1 }

/-- `getEmptyHit()`. -/
def getEmptyHit : HitInfo :=
  { hit := false, t := 0, position := Vec3.zero, normal := Vec3.zero
    material := { emissive := Vec3.zero, diffuse := Vec3.zero, specular := Vec3.zero
                  glossiness := 0 } }

/-- `const float TMIN = 1e-6`. -/
noncomputable def TMIN : ℝ := 1e-6

/-- `const float TMAX = 1e20`. -/
noncomputable def TMAX : ℝ := 1e20

/-! ### Sphere intersection (`intersectSphere`) -/

/-- Quadratic coefficient `a = dot(ray.direction, ray.direction)`. -/
noncomputable def sphereA (ray : Ray) (_s : Sphere) : ℝ := Vec3.dot ray.direction ray.direction

/-- Quadratic coefficient `b = 2 * dot(ray.direction, to_sphere)`. -/
noncomputable def sphereB (ray : Ray) (s : Sphere) : ℝ :=
  2 * Vec3.dot ray.direction (Vec3.sub ray.origin s.position)

/-- Quadratic coefficient
`c = dot(to_sphere, to_sphere) - radius * radius`. -/
noncomputable def sphereC (ray : Ray) (s : Sphere) : ℝ :=
  Vec3.dot (Vec3.sub ray.origin s.position) (Vec3.sub ray.origin s.position)
    - s.radius * s.radius

/-- Discriminant `D = b * b - 4 * a * c`. -/
noncomputable def sphereD (ray : Ray) (s : Sphere) : ℝ :=
  sphereB ray s * sphereB ray s - 4 * sphereA ray s * sphereC ray s

/-- The smaller root after `sortT`. -/
noncomputable def sphereT0 (ray : Ray) (s : Sphere) : ℝ :=
  min ((-sphereB ray s - Real.sqrt (sphereD ray s)) / (2 * sphereA ray s))
      ((-sphereB ray s + Real.sqrt (sphereD ray s)) / (2 * sphereA ray s))

/-- The larger root after `sortT`. -/
noncomputable def sphereT1 (ray : Ray) (s : Sphere) : ℝ :=
  max ((-sphereB ray s - Real.sqrt (sphereD ray s)) / (2 * sphereA ray s))
      ((-sphereB ray s + Real.sqrt (sphereD ray s)) / (2 * sphereA ray s))

open Vec3 in
/-- `intersectSphere` of the TAA fragment shader: discriminant test,
sorted roots, `t = t0` preferred with the two sequential clamps, and the
inside-the-sphere normal flip. -/
noncomputable def intersectSphere (ray : Ray) (s : Sphere) (tMin tMax : ℝ) : HitInfo :=
  if sphereD ray s ≤ 0 then getEmptyHit
  else if sphereT0 ray s > tMax ∨ sphereT1 ray s < tMin then getEmptyHit
  else
    let t := if sphereT1 ray s > tMax then tMax
             else if sphereT0 ray s < tMin then tMin
             else sphereT0 ray s
    let hitPosition := add ray.origin (smul t ray.direction)
    let normal :=
      if len (sub ray.origin s.position) < s.radius + 0.001 then
        neg (normalize (sub hitPosition s.position))
      else normalize (sub hitPosition s.position)
    { hit := true, t := t, position := hitPosition, normal := normal, material := s.material }

/-! ### Plane intersection (`intersectPlane`) -/

/-- The solved plane parameter `t = -(dot(ray.origin, p.normal) + p.d) / denom`. -/
noncomputable def planeT (ray : Ray) (p : Plane) : ℝ :=
  -(Vec3.dot ray.origin p.normal + p.d) / Vec3.dot ray.direction p.normal

open Vec3 in
/-- `intersectPlane` of the fragment shader. -/
noncomputable def intersectPlane (ray : Ray) (p : Plane) (tMin tMax : ℝ) : HitInfo :=
  if |dot ray.direction p.normal| < 1e-6 then getEmptyHit
  else if planeT ray p < tMin ∨ planeT ray p > tMax then getEmptyHit
  else
    { hit := true, t := planeT ray p
      position := add ray.origin (smul (planeT ray p) ray.direction)
      normal := normalize p.normal, material := p.material }

/-! ### The scene (`loadScene`) and the nearest-hit query (`intersectScene`) -/

noncomputable def sceneSpheres : List Sphere :=
  [ ⟨⟨-1.5, 0.5, -7⟩, 1.5, NewOrangePlastic⟩
  , ⟨⟨1.5, 0, -5⟩, 1, NewMirror⟩
  , ⟨⟨2, 2, -5⟩, 0.5, NewLight ⟨3, 4, 3.5⟩⟩
  , ⟨⟨-2.5, -0.5, -3⟩, 0.15, NewLight ⟨10, 8, 6⟩⟩ ]

noncomputable def scenePlanes : List Plane :=
  [ ⟨⟨0, 1, 0⟩, 1, wallMaterial ⟨0.8, 0.8, 0.8⟩⟩
  , ⟨⟨1, 0, 0⟩, 6, wallMaterial ⟨1, 0, 0⟩⟩
  , ⟨⟨-1, 0, 0⟩, 6, wallMaterial ⟨0, 1, 0⟩⟩
  , ⟨⟨0, 0, 1⟩, 10, wallMaterial ⟨0.8, 0.8, 0.8⟩⟩
  , ⟨⟨0, -1, 0⟩, 5, wallMaterial ⟨0.8, 0.8, 0.8⟩⟩ ]

/-- The fold step of `intersectScene`:
`if (h.hit && h.t < best.t) best = h`. -/
noncomputable def sceneBest (best h : HitInfo) : HitInfo :=
  if h.hit = true ∧ h.t < best.t then h else best

/-- The initial best hit: `getEmptyHit()` with `best.t = 1e20`. -/
noncomputable def sentinelHit : HitInfo := { getEmptyHit with t := 1e20 }

/-- The per-primitive hits in iteration order: all spheres, then all
planes, each queried with `(TMIN, TMAX)`. -/
noncomputable def sceneHits (ray : Ray) : List HitInfo :=
  sceneSpheres.map (fun s => intersectSphere ray s TMIN TMAX)
    ++ scenePlanes.map (fun p => intersectPlane ray p TMIN TMAX)

/-- `intersectScene` of the TAA fragment shader. -/
noncomputable def intersectScene (ray : Ray) : HitInfo :=
  (sceneHits ray).foldl sceneBest sentinelHit

/-! ### Path integrator (`sampleDirectionCosineWeighted`,
`getGeometricTerm`, `getReflectance`, `tracePath`) -/

/-- `randFloat()` as a real number (for mixing into the geometry). -/
noncomputable def randFloatR (s : ℕ) : ℝ := (randIntOf s : ℝ) / (maxSignedShort : ℝ)

/-- The `nonParallel` axis chosen by `getToLocalFrame`. -/
noncomputable def nonParallelOf (normal : Vec3) : Vec3 :=
  if |normal.y| > 0.9 then ⟨1, 0, 0⟩ else ⟨0, 1, 0⟩

open Vec3 in
/-- The tangent (`xAxis`) of `getToLocalFrame`. -/
noncomputable def frameTangent (normal : Vec3) : Vec3 :=
  normalize (cross normal (nonParallelOf normal))

open Vec3 in
/-- The bitangent (`yAxis`) of `getToLocalFrame`. -/
noncomputable def frameBitangent (normal : Vec3) : Vec3 :=
  cross normal (frameTangent normal)

open Vec3 in
/-- `sampleDirectionCosineWeighted`: draws `xi_1`, `xi_2` from the RNG,
builds the cosine-weighted local direction, maps it to world space with
the frame of `getToLocalFrame`, and returns
`(probability, direction, newState)` where
`probability = localDir.z / M_PI`. -/
noncomputable def sampleDirectionCosineWeighted (normal : Vec3) (s : ℕ) : ℝ × Vec3 × ℕ :=
  let xi1 := randFloatR s
  let s1 := cycleRandomSeed s
  let xi2 := randFloatR s1
  let s2 := cycleRandomSeed s1
  let cosTheta := Real.sqrt xi1
  let sinTheta := Real.sqrt (1 - xi1)
  let phi := 2 * Real.pi * xi2
  let localDir : Vec3 := ⟨Real.cos phi * sinTheta, Real.sin phi * sinTheta, cosTheta⟩
  let direction :=
    add (add (smul localDir.x (frameTangent normal)) (smul localDir.y (frameBitangent normal)))
      (smul localDir.z normal)
  (localDir.z / Real.pi, direction, s2)

open Vec3 in
/-- `getGeometricTerm`: `max(dot(normal, outDir), 0.0)`. -/
noncomputable def getGeometricTerm (_material : Material) (normal outDir : Vec3) : ℝ :=
  max (dot normal outDir) 0

open Vec3 in
/-- `getReflectance`: `(diffuse / pi + specular * (g+2)/(2 pi) *
max(dot(outDir, reflected), 0)^g) / 2`. -/
noncomputable def getReflectance (material : Material) (normal inDir outDir : Vec3) : Vec3 :=
  let reflected := reflectV (neg inDir) normal
  let diffuse := divs material.diffuse Real.pi
  let specular :=
    smul ((material.glossiness + 2) / (2 * Real.pi)
            * max (dot outDir reflected) 0 ^ material.glossiness)
      material.specular
  divs (add diffuse specular) 2

open Vec3 in
/-- One run of the bounce loop of `tracePath`, with the remaining
iteration budget as fuel.  Returns the accumulated radiance, the final
RNG state and the number of scene intersections performed (one per loop
iteration entered). -/
noncomputable def tracePathAux : ℕ → Ray → Vec3 → Vec3 → ℕ → Vec3 × ℕ × ℕ
  | 0, _, _, radiance, s => (radiance, s, 0)
  | fuel + 1, ray, throughput, radiance, s =>
    let h := intersectScene ray
    if h.hit = false then (radiance, s, 1)
    else
      let radiance1 := add radiance (cmul throughput h.material.emissive)
      let sampled := sampleDirectionCosineWeighted h.normal s
      let probability := sampled.1
      let outDir := normalize sampled.2.1
      let s1 := sampled.2.2
      let outOrigin := add h.position (smul 1e-5 h.normal)
      let geometricTerm := getGeometricTerm h.material h.normal outDir
      if geometricTerm < 1e-6 then (radiance1, s1, 1)
      else
        let reflectance := getReflectance h.material h.normal ray.direction outDir
        let throughput1 := divs (smul geometricTerm (cmul throughput reflectance)) probability
        let rest := tracePathAux fuel ⟨outOrigin, outDir⟩ throughput1 radiance1 s1
        (rest.1, rest.2.1, rest.2.2 + 1)

/-- `iMaxPathLength = 5`. -/
def iMaxPathLength : ℕ := 5

/-- `tracePath` of the TAA fragment shader, with the RNG state threaded
explicitly; also exposes the final RNG state and the number of scene
intersections. -/
noncomputable def tracePath (ray : Ray) (s : ℕ) : Vec3 × ℕ × ℕ :=
  tracePathAux iMaxPathLength ray Vec3.one Vec3.zero s

/-! ### Camera (`generateCameraRay` with `FEATURE_TAA` enabled) -/

open Vec3 in
/-- `generateCameraRay` of the TAA fragment shader: jitters the uv by
`vec2(randFloat() - 0.5, randFloat() - 0.5) / iResolution.xy`, then
builds and rotates the local direction.  Returns the ray and the new RNG
state. -/
noncomputable def generateCameraRay (uv : ℝ × ℝ) (cameraPos : Vec3) (cameraRot : Vec4)
    (resolution : ℝ × ℝ) (s : ℕ) : Ray × ℕ :=
  let localOrigin : Vec3 := ⟨0, 0, 0⟩
  let j1 := randFloatR s
  let s1 := cycleRandomSeed s
  let j2 := randFloatR s1
  let s2 := cycleRandomSeed s1
  let uvJ := (uv.1 + (j1 - 0.5) / resolution.1, uv.2 + (j2 - 0.5) / resolution.2)
  let localDir := Vec3.normalize ⟨uvJ.1 * 2 - 1, uvJ.2 * 2 - 1, -1.5⟩
  let worldOrigin := add cameraPos (rotateByQuaternion localOrigin cameraRot)
  let worldDir := rotateByQuaternion localDir cameraRot
  (⟨worldOrigin, normalize worldDir⟩, s2)

/-! ### Tonemap stage (`tonemap.glsl` with `USE_ACES`) -/

/-- GLSL `clamp(x, 0, 1) = min(max(x, 0), 1)`. -/
noncomputable def clamp01 (x : ℝ) : ℝ := min (max x 0) 1

/-- One channel of `RRTAndODT_Fit`. -/
noncomputable def RRTAndODT_Fit (v : ℝ) : ℝ :=
  clamp01 (v * (2.51 * v + 0.03) / (v * (2.43 * v + 0.59) + 0.14))

/-- One channel of the ACES tonemap `main`: exposure mapping
`1 - exp(-hdr * iExposure)` followed by `RRTAndODT_Fit`. -/
noncomputable def tonemapACES (hdr exposure : ℝ) : ℝ :=
  RRTAndODT_Fit (1 - Real.exp (-(hdr * exposure)))

/-- The mapping the specification ascribes to the ACES policy: the ACES
fit applied directly to the accumulated HDR value, with no exposure
mapping first.  (Stated from the spec's words, for comparison with
`tonemapACES`.) -/
noncomputable def acesClaimed (hdr : ℝ) : ℝ :=
  clamp01 (hdr * (2.51 * hdr + 0.03) / (hdr * (2.43 * hdr + 0.59) + 0.14))

/-! ## Theorems -/

/-- C2: the accumulation fold satisfies
`newMean * (n + 1) = prevMean * n + currentSample` for every frame index
`n`, previous mean and current sample; at `n = 0` the result equals the
sample exactly, independent of the prior buffer value; and each tick
increments the frame index by one after the fold. -/
theorem accumulate_running_mean (n : ℕ) (p s : ℚ) (st : TickState) (inp : TickInput) :
    accumulate n p s * ((n : ℚ) + 1) = p * (n : ℚ) + s
      ∧ accumulate 0 p s = s
      ∧ (tick st inp).frameIdx = tickUsedIdx st inp + 1 := by
  refine ⟨?_, ?_, rfl⟩
  · have h : ((n : ℚ) + 1) ≠ 0 := by positivity
    unfold accumulate
    exact div_mul_cancel₀ _ h
  · unfold accumulate
    simp

/-- C4 (counterexample): from state 14112 the RNG's `randFloat` output is
exactly 1, so the output interval is not the half-open `[0, 1)`. -/
theorem randFloat_attains_one : randFloatOf 14112 = 1 := by
  have h : randIntOf 14112 = 32767 := by decide
  rw [randFloatOf, h, maxSignedShort]
  norm_num

/-- C4 (amended): `randFloat` equals `randInt / 32767` where `randInt` is
the updated LCG state masked to its non-negative low 31 bits and reduced
modulo 32768, hence lies in the closed interval `[0, 1]`; the value 1 is
attained (see the counterexample), so the interval is closed, not
half-open. -/
theorem randFloat_range (s : ℕ) :
    randFloatOf s = (randIntOf s : ℚ) / 32767
      ∧ randIntOf s = (cycleRandomSeed s &&& 0x7FFFFFFF) % 32768
      ∧ randIntOf s ≤ 32767
      ∧ 0 ≤ randFloatOf s ∧ randFloatOf s ≤ 1 := by
  have hle : randIntOf s ≤ 32767 := by
    have h := Nat.mod_lt (cycleRandomSeed s &&& 0x7FFFFFFF)
      (show 0 < 32768 by norm_num)
    unfold randIntOf maxSignedShort
    omega
  have heq : randFloatOf s = (randIntOf s : ℚ) / 32767 := by
    norm_num [randFloatOf, maxSignedShort]
  refine ⟨heq, rfl, hle, ?_, ?_⟩
  · rw [heq]
    positivity
  · rw [heq, div_le_one (by norm_num)]
    exact_mod_cast hle

/-- C7: the sampler is deterministic — two runs seeded from identical
`(pixelCoord, scaledTime)` triples have equal seeds and identical
`randInt`/`randFloat` outputs at every position of the sequence. -/
theorem rng_deterministic (px₁ py₁ : ℕ) (t₁ : ℤ) (px₂ py₂ : ℕ) (t₂ : ℤ)
    (hx : px₁ = px₂) (hy : py₁ = py₂) (ht : t₁ = t₂) :
    initRandomSeed px₁ py₁ t₁ = initRandomSeed px₂ py₂ t₂
      ∧ ∀ n : ℕ,
          nthRandInt (initRandomSeed px₁ py₁ t₁) n = nthRandInt (initRandomSeed px₂ py₂ t₂) n
            ∧ nthRandFloat (initRandomSeed px₁ py₁ t₁) n
                = nthRandFloat (initRandomSeed px₂ py₂ t₂) n := by
  subst hx hy ht
  exact ⟨rfl, fun n => ⟨rfl, rfl⟩⟩

/-- C7 (witness): the determinism theorem applied to the concrete seed
triple `(3, 5, 7)` at sequence position 4. -/
theorem rng_deterministic_witness :
    initRandomSeed 3 5 7 = initRandomSeed 3 5 7
      ∧ nthRandFloat (initRandomSeed 3 5 7) 4 = nthRandFloat (initRandomSeed 3 5 7) 4 :=
  ⟨(rng_deterministic 3 5 7 3 5 7 rfl rfl rfl).1,
    ((rng_deterministic 3 5 7 3 5 7 rfl rfl rfl).2 4).2⟩

/-- C8: if the camera pose at the start of a tick differs from the pose
recorded at the previous tick, that tick's accumulation pass runs with
frame index 0. -/
theorem tick_poseChange_resets (st : TickState) (inp : TickInput)
    (h : st.camPos ≠ st.prevCamPos ∨ st.camRot ≠ st.prevCamRot) :
    tickUsedIdx st inp = 0 := by
  unfold tickUsedIdx
  cases hd : inp.deltaMove with
  | some d =>
    by_cases hp : poseChangedB st inp = true
    · simp [hp]
    · simp [hp, frameIdxAfterMove, hd]
  | none =>
    have hp : poseChangedB st inp = true := by
      unfold poseChangedB
      rcases h with h | h
      · have : movedCamPos st inp = st.camPos := by
          unfold movedCamPos
          rw [hd]
        simp [this, h]
      · simp [h]
    simp [hp]

/-- C8 (witness): the reset theorem applied at a concrete tick state
whose camera position differs from the recorded previous position. -/
theorem tick_poseChange_resets_witness :
    ((⟨7, ⟨1, 0, 0⟩, ⟨0, 0, 0, 1⟩, ⟨0, 0, 0⟩, ⟨0, 0, 0, 1⟩⟩ : TickState).camPos
        ≠ (⟨7, ⟨1, 0, 0⟩, ⟨0, 0, 0, 1⟩, ⟨0, 0, 0⟩, ⟨0, 0, 0, 1⟩⟩ : TickState).prevCamPos)
      ∧ tickUsedIdx ⟨7, ⟨1, 0, 0⟩, ⟨0, 0, 0, 1⟩, ⟨0, 0, 0⟩, ⟨0, 0, 0, 1⟩⟩ ⟨false, none⟩ = 0 :=
  ⟨by decide,
    tick_poseChange_resets ⟨7, ⟨1, 0, 0⟩, ⟨0, 0, 0, 1⟩, ⟨0, 0, 0⟩, ⟨0, 0, 0, 1⟩⟩
      ⟨false, none⟩ (Or.inl (by decide))⟩

/-- C3 (counterexample): at `hdr = 10` and `exposure = 1` the tonemap
stage's output differs from the claimed direct ACES mapping of the HDR
value — the code applies exposure mapping first, so its output stays
strictly below 1, while the direct ACES fit clamps `hdr = 10` to exactly
1. -/
theorem tonemapACES_ne_claimed : tonemapACES 10 1 ≠ acesClaimed 10 := by
  have hclaimed : acesClaimed 10 = 1 := by
    unfold acesClaimed clamp01
    rw [max_eq_left (by norm_num), min_eq_right (by norm_num)]
  have hv0 : (0 : ℝ) ≤ 1 - Real.exp (-(10 * 1)) := by
    have := Real.exp_le_one_iff.mpr (show -(10 * 1 : ℝ) ≤ 0 by norm_num)
    linarith
  have hv1 : 1 - Real.exp (-(10 * 1)) < 1 := by
    have := Real.exp_pos (-(10 * 1 : ℝ))
    linarith
  have hcode : tonemapACES 10 1 < 1 := by
    unfold tonemapACES RRTAndODT_Fit clamp01
    set v : ℝ := 1 - Real.exp (-(10 * 1)) with hvdef
    have hden : 0 < v * (2.43 * v + 0.59) + 0.14 := by nlinarith
    have hratio : v * (2.51 * v + 0.03) / (v * (2.43 * v + 0.59) + 0.14) < 1 := by
      rw [div_lt_one hden]
      nlinarith
    calc min (max (v * (2.51 * v + 0.03) / (v * (2.43 * v + 0.59) + 0.14)) 0) 1
        ≤ max (v * (2.51 * v + 0.03) / (v * (2.43 * v + 0.59) + 0.14)) 0 :=
          min_le_left _ _
      _ < 1 := max_lt hratio one_pos
  rw [hclaimed]
  exact ne_of_lt hcode

/-- C3 (amended): the ACES tonemap stage first applies the exposure
mapping `1 - exp(-hdr * exposure)` and then the ACES fit
`clamp(v*(2.51v+0.03) / (v*(2.43v+0.59)+0.14), 0, 1)` to the
exposure-mapped value (gamma is not applied in this branch); the result
always lies in `[0, 1]`. -/
theorem tonemapACES_spec (hdr exposure : ℝ) :
    tonemapACES hdr exposure
        = clamp01 (let v := 1 - Real.exp (-(hdr * exposure))
                   v * (2.51 * v + 0.03) / (v * (2.43 * v + 0.59) + 0.14))
      ∧ 0 ≤ tonemapACES hdr exposure ∧ tonemapACES hdr exposure ≤ 1 := by
  refine ⟨rfl, ?_, ?_⟩
  · unfold tonemapACES RRTAndODT_Fit clamp01
    exact le_min (le_max_right _ _) zero_le_one
  · unfold tonemapACES RRTAndODT_Fit clamp01
    exact min_le_right _ _

/-- C5: sphere intersection returns no-hit exactly when `D <= 0`, or
`t0 > tMax`, or `t1 < tMin` (roots ordered `t0 <= t1`); otherwise it
returns a hit whose ray parameter is `t0`, clamped to `tMin` when
`t0 < tMin` and clamped to `tMax` when `t1` exceeds `tMax` (the `tMax`
clamp being applied last, as in the source). -/
theorem intersectSphere_spec (ray : Ray) (s : Sphere) (tMin tMax : ℝ) :
    (intersectSphere ray s tMin tMax = getEmptyHit
        ↔ sphereD ray s ≤ 0 ∨ sphereT0 ray s > tMax ∨ sphereT1 ray s < tMin)
      ∧ sphereT0 ray s ≤ sphereT1 ray s
      ∧ (¬(sphereD ray s ≤ 0 ∨ sphereT0 ray s > tMax ∨ sphereT1 ray s < tMin) →
          (intersectSphere ray s tMin tMax).hit = true
            ∧ (intersectSphere ray s tMin tMax).t
                = if sphereT1 ray s > tMax then tMax
                  else if sphereT0 ray s < tMin then tMin
                  else sphereT0 ray s) := by
  by_cases h1 : sphereD ray s ≤ 0
  · refine ⟨?_, min_le_max, ?_⟩
    · simp only [intersectSphere, if_pos h1]
      exact ⟨fun _ => Or.inl h1, fun _ => trivial⟩
    · intro hc
      exact absurd (Or.inl h1) hc
  · by_cases h2 : sphereT0 ray s > tMax ∨ sphereT1 ray s < tMin
    · refine ⟨?_, min_le_max, ?_⟩
      · simp only [intersectSphere, if_neg h1, if_pos h2]
        exact ⟨fun _ => Or.inr h2, fun _ => trivial⟩
      · intro hc
        exact absurd (Or.inr h2) hc
    · have hval : (intersectSphere ray s tMin tMax).hit = true
          ∧ (intersectSphere ray s tMin tMax).t
              = if sphereT1 ray s > tMax then tMax
                else if sphereT0 ray s < tMin then tMin
                else sphereT0 ray s := by
        rw [intersectSphere, if_neg h1, if_neg h2]
        exact ⟨rfl, rfl⟩
      refine ⟨⟨fun he => ?_, fun hcond => ?_⟩, min_le_max, fun _ => hval⟩
      · have hh := hval.1
        rw [he] at hh
        simp [getEmptyHit] at hh
      · rcases hcond with h | h | h
        · exact absurd h h1
        · exact absurd (Or.inl h) h2
        · exact absurd (Or.inr h) h2

/-- Ray of the reference sphere-intersection test: origin `(0,0,0)`,
direction `(0,0,-1)`. -/
noncomputable def unitSphereTestRay : Ray := ⟨⟨0, 0, 0⟩, ⟨0, 0, -1⟩⟩

/-- Sphere of the reference sphere-intersection test: centre `(0,0,-5)`,
radius 1. -/
noncomputable def unitSphereTest : Sphere := ⟨⟨0, 0, -5⟩, 1, NewMirror⟩

/-- C5 (witness): the sphere-intersection theorem evaluated at the
reference test — the ray hits at `t = 4`. -/
theorem intersectSphere_spec_witness :
    (intersectSphere unitSphereTestRay unitSphereTest 0.001 1e20).hit = true
      ∧ (intersectSphere unitSphereTestRay unitSphereTest 0.001 1e20).t = 4 := by
  have hA : sphereA unitSphereTestRay unitSphereTest = 1 := by
    norm_num [sphereA, unitSphereTestRay, Vec3.dot]
  have hB : sphereB unitSphereTestRay unitSphereTest = -10 := by
    norm_num [sphereB, unitSphereTestRay, unitSphereTest, Vec3.dot, Vec3.sub]
  have hD : sphereD unitSphereTestRay unitSphereTest = 4 := by
    rw [sphereD, hA, hB]
    norm_num [sphereC, unitSphereTestRay, unitSphereTest, Vec3.dot, Vec3.sub]
  have hsq : Real.sqrt (sphereD unitSphereTestRay unitSphereTest) = 2 := by
    rw [hD, show (4 : ℝ) = 2 ^ 2 by norm_num, Real.sqrt_sq (by norm_num)]
  have hT0 : sphereT0 unitSphereTestRay unitSphereTest = 4 := by
    unfold sphereT0
    rw [hsq, hA, hB]
    norm_num
  have hT1 : sphereT1 unitSphereTestRay unitSphereTest = 6 := by
    unfold sphereT1
    rw [hsq, hA, hB]
    norm_num
  have h := (intersectSphere_spec unitSphereTestRay unitSphereTest 0.001 1e20).2.2
  rw [hD, hT0, hT1] at h
  have hc := h (by norm_num)
  refine ⟨hc.1, ?_⟩
  rw [hc.2]
  norm_num

/-- C9: plane intersection returns no-hit when `|dot(n, dir)| < 1e-6`,
otherwise solves `dot(n, origin + t*dir) + d = 0` for `t` and rejects
`t` outside `[tMin, tMax]`; the reference test with ray origin
`(0,2,0)`, direction `(0,-1,0)`, plane normal `(0,1,0)`, offset `-1`
hits at `t = 1`, position `(0,1,0)`. -/
theorem intersectPlane_spec (ray : Ray) (p : Plane) (tMin tMax : ℝ) :
    (|Vec3.dot ray.direction p.normal| < 1e-6 →
        intersectPlane ray p tMin tMax = getEmptyHit)
      ∧ (¬ |Vec3.dot ray.direction p.normal| < 1e-6 →
          (planeT ray p < tMin ∨ planeT ray p > tMax →
              intersectPlane ray p tMin tMax = getEmptyHit)
            ∧ (¬(planeT ray p < tMin ∨ planeT ray p > tMax) →
                (intersectPlane ray p tMin tMax).hit = true
                  ∧ (intersectPlane ray p tMin tMax).t = planeT ray p
                  ∧ Vec3.dot p.normal
                        (Vec3.add ray.origin (Vec3.smul (planeT ray p) ray.direction))
                      + p.d = 0))
      ∧ ((intersectPlane ⟨⟨0, 2, 0⟩, ⟨0, -1, 0⟩⟩
              ⟨⟨0, 1, 0⟩, -1, wallMaterial ⟨0.8, 0.8, 0.8⟩⟩ TMIN TMAX).hit = true
          ∧ (intersectPlane ⟨⟨0, 2, 0⟩, ⟨0, -1, 0⟩⟩
              ⟨⟨0, 1, 0⟩, -1, wallMaterial ⟨0.8, 0.8, 0.8⟩⟩ TMIN TMAX).t = 1
          ∧ (intersectPlane ⟨⟨0, 2, 0⟩, ⟨0, -1, 0⟩⟩
              ⟨⟨0, 1, 0⟩, -1, wallMaterial ⟨0.8, 0.8, 0.8⟩⟩ TMIN TMAX).position
              = ⟨0, 1, 0⟩) := by
  refine ⟨?_, ?_, ?_⟩
  · intro h
    simp only [intersectPlane, if_pos h]
  · intro h
    constructor
    · intro hrange
      simp only [intersectPlane, if_neg h, if_pos hrange]
    · intro hrange
      have hval : (intersectPlane ray p tMin tMax).hit = true
          ∧ (intersectPlane ray p tMin tMax).t = planeT ray p := by
        rw [intersectPlane, if_neg h, if_neg hrange]
        exact ⟨rfl, rfl⟩
      refine ⟨hval.1, hval.2, ?_⟩
      have hden : Vec3.dot ray.direction p.normal ≠ 0 := by
        intro h0
        rw [h0] at h
        norm_num at h
      unfold planeT Vec3.dot Vec3.add Vec3.smul
      unfold Vec3.dot at hden
      field_simp
      ring
  · have hden : |Vec3.dot (Vec3.mk 0 (-1) 0) (Vec3.mk 0 1 0)| = 1 := by
      unfold Vec3.dot
      norm_num
    have hT : planeT ⟨⟨0, 2, 0⟩, ⟨0, -1, 0⟩⟩ ⟨⟨0, 1, 0⟩, -1, wallMaterial ⟨0.8, 0.8, 0.8⟩⟩ = 1 := by
      unfold planeT Vec3.dot
      norm_num
    have hnotpar : ¬ |Vec3.dot (Vec3.mk 0 (-1) 0) (Vec3.mk 0 1 0)| < 1e-6 := by
      rw [hden]
      norm_num
    have hrange : ¬(planeT ⟨⟨0, 2, 0⟩, ⟨0, -1, 0⟩⟩
        ⟨⟨0, 1, 0⟩, -1, wallMaterial ⟨0.8, 0.8, 0.8⟩⟩ < TMIN
          ∨ planeT ⟨⟨0, 2, 0⟩, ⟨0, -1, 0⟩⟩
              ⟨⟨0, 1, 0⟩, -1, wallMaterial ⟨0.8, 0.8, 0.8⟩⟩ > TMAX) := by
      rw [hT]
      unfold TMIN TMAX
      norm_num
    have hval : (intersectPlane ⟨⟨0, 2, 0⟩, ⟨0, -1, 0⟩⟩
        ⟨⟨0, 1, 0⟩, -1, wallMaterial ⟨0.8, 0.8, 0.8⟩⟩ TMIN TMAX)
          = { hit := true
              t := planeT ⟨⟨0, 2, 0⟩, ⟨0, -1, 0⟩⟩ ⟨⟨0, 1, 0⟩, -1, wallMaterial ⟨0.8, 0.8, 0.8⟩⟩
              position := Vec3.add ⟨0, 2, 0⟩
                (Vec3.smul (planeT ⟨⟨0, 2, 0⟩, ⟨0, -1, 0⟩⟩
                  ⟨⟨0, 1, 0⟩, -1, wallMaterial ⟨0.8, 0.8, 0.8⟩⟩) ⟨0, -1, 0⟩)
              normal := Vec3.normalize ⟨0, 1, 0⟩
              material := wallMaterial ⟨0.8, 0.8, 0.8⟩ } := by
      rw [intersectPlane, if_neg hnotpar, if_neg hrange]
    rw [hval]
    refine ⟨rfl, hT, ?_⟩
    rw [hT]
    unfold Vec3.add Vec3.smul
    norm_num

/-- C9 (witness): the plane theorem's reference-test conjunct, applied at
the reference inputs. -/
theorem intersectPlane_spec_witness :
    (intersectPlane ⟨⟨0, 2, 0⟩, ⟨0, -1, 0⟩⟩
        ⟨⟨0, 1, 0⟩, -1, wallMaterial ⟨0.8, 0.8, 0.8⟩⟩ TMIN TMAX).hit = true
      ∧ (intersectPlane ⟨⟨0, 2, 0⟩, ⟨0, -1, 0⟩⟩
          ⟨⟨0, 1, 0⟩, -1, wallMaterial ⟨0.8, 0.8, 0.8⟩⟩ TMIN TMAX).t = 1
      ∧ (intersectPlane ⟨⟨0, 2, 0⟩, ⟨0, -1, 0⟩⟩
          ⟨⟨0, 1, 0⟩, -1, wallMaterial ⟨0.8, 0.8, 0.8⟩⟩ TMIN TMAX).position = ⟨0, 1, 0⟩ :=
  (intersectPlane_spec ⟨⟨0, 2, 0⟩, ⟨0, -1, 0⟩⟩
    ⟨⟨0, 1, 0⟩, -1, wallMaterial ⟨0.8, 0.8, 0.8⟩⟩ 0 0).2.2

/-! ### Properties of the nearest-hit fold -/

theorem foldl_sceneBest_t_mono (l : List HitInfo) (init : HitInfo) :
    (l.foldl sceneBest init).t ≤ init.t := by
  induction l generalizing init with
  | nil => exact le_refl _
  | cons a tl ih =>
    rw [List.foldl_cons]
    refine le_trans (ih (sceneBest init a)) ?_
    unfold sceneBest
    by_cases hc : a.hit = true ∧ a.t < init.t
    · rw [if_pos hc]
      exact le_of_lt hc.2
    · rw [if_neg hc]

theorem foldl_sceneBest_le_hits (l : List HitInfo) (init : HitInfo) :
    ∀ h ∈ l, h.hit = true → (l.foldl sceneBest init).t ≤ h.t := by
  induction l generalizing init with
  | nil => intro h hm; exact absurd hm (List.not_mem_nil h)
  | cons a tl ih =>
    intro h hm hhit
    rw [List.foldl_cons]
    rcases List.mem_cons.mp hm with rfl | hm'
    · refine le_trans (foldl_sceneBest_t_mono tl _) ?_
      unfold sceneBest
      by_cases hc : h.hit = true ∧ h.t < init.t
      · rw [if_pos hc]
      · rw [if_neg hc]
        push_neg at hc
        exact hc hhit
    · exact ih _ h hm' hhit

theorem foldl_sceneBest_init_or_mem (l : List HitInfo) (init : HitInfo) :
    l.foldl sceneBest init = init
      ∨ (l.foldl sceneBest init ∈ l ∧ (l.foldl sceneBest init).hit = true) := by
  induction l generalizing init with
  | nil => exact Or.inl rfl
  | cons a tl ih =>
    rw [List.foldl_cons]
    rcases ih (sceneBest init a) with h | ⟨hmem, hhit⟩
    · rw [h]
      unfold sceneBest
      by_cases hc : a.hit = true ∧ a.t < init.t
      · rw [if_pos hc]
        exact Or.inr ⟨List.mem_cons_self a tl, hc.1⟩
      · rw [if_neg hc]
        exact Or.inl rfl
    · exact Or.inr ⟨List.mem_cons_of_mem a hmem, hhit⟩

theorem foldl_sceneBest_all_miss (l : List HitInfo) (init : HitInfo)
    (hall : ∀ h ∈ l, h.hit = false) : l.foldl sceneBest init = init := by
  induction l with
  | nil => rfl
  | cons a tl ih =>
    rw [List.foldl_cons]
    have hstep : sceneBest init a = init := by
      unfold sceneBest
      have : ¬(a.hit = true ∧ a.t < init.t) := by
        intro hc
        rw [hall a (List.mem_cons_self a tl)] at hc
        exact Bool.false_ne_true hc.1
      rw [if_neg this]
    rw [hstep]
    exact ih fun h hm => hall h (List.mem_cons_of_mem a hm)

theorem foldl_sceneBest_keep (l : List HitInfo) (b : HitInfo)
    (hall : ∀ h ∈ l, h.hit = true → ¬ h.t < b.t) : l.foldl sceneBest b = b := by
  induction l with
  | nil => rfl
  | cons a tl ih =>
    rw [List.foldl_cons]
    have hstep : sceneBest b a = b := by
      unfold sceneBest
      by_cases hc : a.hit = true ∧ a.t < b.t
      · exact absurd hc.2 (hall a (List.mem_cons_self a tl) hc.1)
      · rw [if_neg hc]
    rw [hstep]
    exact ih fun h hm hh => hall h (List.mem_cons_of_mem a hm) hh

theorem foldl_sceneBest_first_min (l : List HitInfo) (init : HitInfo) :
    ∀ i (hi : i < l.length),
      (l.get ⟨i, hi⟩).hit = true →
      (l.get ⟨i, hi⟩).t < init.t →
      (∀ j (hj : j < l.length), (l.get ⟨j, hj⟩).hit = true →
        (l.get ⟨i, hi⟩).t ≤ (l.get ⟨j, hj⟩).t) →
      (∀ j (hj : j < l.length), j < i → (l.get ⟨j, hj⟩).hit = true →
        (l.get ⟨i, hi⟩).t < (l.get ⟨j, hj⟩).t) →
      l.foldl sceneBest init = l.get ⟨i, hi⟩ := by
  induction l generalizing init with
  | nil =>
    intro i hi
    exact absurd hi (by simp)
  | cons a tl ih =>
    intro i hi hhit hlt hmin hfirst
    rw [List.foldl_cons]
    cases i with
    | zero =>
      have hget : (a :: tl).get ⟨0, hi⟩ = a := rfl
      rw [hget] at hhit hlt hmin ⊢
      have hstep : sceneBest init a = a := by
        unfold sceneBest
        rw [if_pos ⟨hhit, hlt⟩]
      rw [hstep]
      refine foldl_sceneBest_keep tl a ?_
      intro h hm hh
      rcases List.mem_iff_get.mp hm with ⟨⟨j, hj⟩, rfl⟩
      have hj' : j + 1 < (a :: tl).length := by
        simp only [List.length_cons]
        omega
      have := hmin (j + 1) hj' (by rw [List.get_cons_succ]; exact hh)
      rw [List.get_cons_succ] at this
      exact not_lt.mpr this
    | succ k =>
      have hk : k < tl.length := by
        simp only [List.length_cons] at hi
        omega
      have hgetk : (a :: tl).get ⟨k + 1, hi⟩ = tl.get ⟨k, hk⟩ := List.get_cons_succ
      rw [hgetk] at hhit hlt hmin hfirst ⊢
      have hlt' : (tl.get ⟨k, hk⟩).t < (sceneBest init a).t := by
        unfold sceneBest
        by_cases hc : a.hit = true ∧ a.t < init.t
        · rw [if_pos hc]
          have h0 : (0 : ℕ) < (a :: tl).length := by simp
          exact hfirst 0 h0 (Nat.succ_pos k) hc.1
        · rw [if_neg hc]
          exact hlt
      refine ih (sceneBest init a) k hk hhit hlt' ?_ ?_
      · intro j hj hh
        have hj' : j + 1 < (a :: tl).length := by
          simp only [List.length_cons]
          omega
        have := hmin (j + 1) hj' (by rw [List.get_cons_succ]; exact hh)
        rw [List.get_cons_succ] at this
        exact this
      · intro j hj hjk hh
        have hj' : j + 1 < (a :: tl).length := by
          simp only [List.length_cons]
          omega
        have := hfirst (j + 1) hj' (by omega) (by rw [List.get_cons_succ]; exact hh)
        rw [List.get_cons_succ] at this
        exact this

/-- C6: the scene query returns the hit with the smallest in-range `t`:
the result's `t` is a lower bound on every primitive hit, the result is
either the sentinel or one of the per-primitive hits, a ray hitting no
primitive yields the sentinel with `t = 1e20`, and the hit returned is
the first (in iteration order: spheres before planes, then declaration
order) whose `t` attains the minimum — in particular a strictly smaller
`t` always wins and exact ties go to the earlier primitive. -/
theorem intersectScene_nearest (ray : Ray) :
    (∀ h ∈ sceneHits ray, h.hit = true → (intersectScene ray).t ≤ h.t)
      ∧ (intersectScene ray = sentinelHit
          ∨ ((intersectScene ray).hit = true ∧ intersectScene ray ∈ sceneHits ray))
      ∧ ((∀ h ∈ sceneHits ray, h.hit = false) →
          intersectScene ray = sentinelHit ∧ sentinelHit.t = 1e20)
      ∧ (∀ i (hi : i < (sceneHits ray).length),
          ((sceneHits ray).get ⟨i, hi⟩).hit = true →
          ((sceneHits ray).get ⟨i, hi⟩).t < 1e20 →
          (∀ j (hj : j < (sceneHits ray).length), ((sceneHits ray).get ⟨j, hj⟩).hit = true →
            ((sceneHits ray).get ⟨i, hi⟩).t ≤ ((sceneHits ray).get ⟨j, hj⟩).t) →
          (∀ j (hj : j < (sceneHits ray).length), j < i →
            ((sceneHits ray).get ⟨j, hj⟩).hit = true →
            ((sceneHits ray).get ⟨i, hi⟩).t < ((sceneHits ray).get ⟨j, hj⟩).t) →
          intersectScene ray = (sceneHits ray).get ⟨i, hi⟩) := by
  refine ⟨?_, ?_, ?_, ?_⟩
  · exact foldl_sceneBest_le_hits (sceneHits ray) sentinelHit
  · rcases foldl_sceneBest_init_or_mem (sceneHits ray) sentinelHit with h | ⟨hm, hh⟩
    · exact Or.inl h
    · exact Or.inr ⟨hh, hm⟩
  · intro hall
    exact ⟨foldl_sceneBest_all_miss (sceneHits ray) sentinelHit hall, rfl⟩
  · intro i hi hhit hlt hmin hfirst
    exact foldl_sceneBest_first_min (sceneHits ray) sentinelHit i hi hhit hlt hmin hfirst

/-! ### Properties of the camera-ray generator -/

theorem rotateByQuaternion_id (v : Vec3) : rotateByQuaternion v ⟨0, 0, 0, 1⟩ = v := by
  cases v with
  | mk x y z =>
    simp only [rotateByQuaternion, Vec4.xyz, Vec3.cross, Vec3.smul, Vec3.add]
    norm_num

theorem len_pos_of_z_ne (v : Vec3) (hz : v.z ≠ 0) : 0 < Vec3.len v := by
  unfold Vec3.len Vec3.dot
  apply Real.sqrt_pos.mpr
  nlinarith [mul_self_nonneg v.x, mul_self_nonneg v.y, mul_self_pos.mpr hz]

theorem dot_self_nonneg (v : Vec3) : 0 ≤ Vec3.dot v v := by
  unfold Vec3.dot
  nlinarith [mul_self_nonneg v.x, mul_self_nonneg v.y, mul_self_nonneg v.z]

theorem normalize_len_one (v : Vec3) (h : 0 < Vec3.len v) : Vec3.len (Vec3.normalize v) = 1 := by
  have hL : Vec3.len v ≠ 0 := ne_of_gt h
  have hL2 : Vec3.len v * Vec3.len v = Vec3.dot v v := Real.mul_self_sqrt (dot_self_nonneg v)
  have key : Vec3.dot (Vec3.normalize v) (Vec3.normalize v) = 1 := by
    unfold Vec3.dot at hL2
    unfold Vec3.normalize Vec3.divs Vec3.dot
    rw [div_mul_div_comm, div_mul_div_comm, div_mul_div_comm, div_add_div_same,
      div_add_div_same, ← hL2]
    exact div_self (mul_ne_zero hL hL)
  unfold Vec3.len
  rw [key, Real.sqrt_one]

theorem normalize_normalize (v : Vec3) (h : 0 < Vec3.len v) :
    Vec3.normalize (Vec3.normalize v) = Vec3.normalize v := by
  have h1 := normalize_len_one v h
  show Vec3.divs (Vec3.normalize v) (Vec3.len (Vec3.normalize v)) = Vec3.normalize v
  rw [h1]
  cases hv : Vec3.normalize v with
  | mk x y z =>
    simp [Vec3.divs]

theorem normalize_inj_x (a b : Vec3) (hza : a.z = -1.5) (hzb : b.z = -1.5)
    (heq : Vec3.normalize a = Vec3.normalize b) : a.x = b.x := by
  have hLa : 0 < Vec3.len a := len_pos_of_z_ne a (by rw [hza]; norm_num)
  have hLb : 0 < Vec3.len b := len_pos_of_z_ne b (by rw [hzb]; norm_num)
  have hne_a : Vec3.len a ≠ 0 := ne_of_gt hLa
  have hne_b : Vec3.len b ≠ 0 := ne_of_gt hLb
  have hz := congrArg Vec3.z heq
  have hx := congrArg Vec3.x heq
  simp only [Vec3.normalize, Vec3.divs] at hz hx
  rw [hza, hzb] at hz
  have hL : Vec3.len a = Vec3.len b := by
    field_simp at hz
    rcases hz with hz | hz
    · exact hz.symm
    · norm_num at hz
  rw [hL] at hx
  field_simp [hne_b] at hx
  exact hx

/-- C10: with TAA enabled, `generateCameraRay` advances the RNG state by
two draws, offsets the uv by
`((randFloat()-0.5)/res.x, (randFloat()-0.5)/res.y)` before building the
ray direction, and is therefore not a function of `(pixelUV, pose)`
alone: at a fixed pixel, pose and resolution, the RNG states 0 and 1
give different ray directions. -/
theorem generateCameraRay_taa :
    (∀ (uv : ℝ × ℝ) (pos : Vec3) (rot : Vec4) (res : ℝ × ℝ) (s : ℕ),
        (generateCameraRay uv pos rot res s).2 = cycleRandomSeed (cycleRandomSeed s))
      ∧ (∀ (uv : ℝ × ℝ) (pos : Vec3) (rot : Vec4) (res : ℝ × ℝ) (s : ℕ),
          (generateCameraRay uv pos rot res s).1.direction
            = Vec3.normalize (rotateByQuaternion
                (Vec3.normalize
                  ⟨(uv.1 + (randFloatR s - 0.5) / res.1) * 2 - 1,
                   (uv.2 + (randFloatR (cycleRandomSeed s) - 0.5) / res.2) * 2 - 1,
                   -1.5⟩) rot))
      ∧ (generateCameraRay (1/2, 1/2) ⟨0, 0, 0⟩ ⟨0, 0, 0, 1⟩ (1, 1) 0).1.direction
          ≠ (generateCameraRay (1/2, 1/2) ⟨0, 0, 0⟩ ⟨0, 0, 0, 1⟩ (1, 1) 1).1.direction := by
  refine ⟨fun uv pos rot res s => rfl, fun uv pos rot res s => rfl, ?_⟩
  have hr0 : randFloatR 0 = 29535 / 32767 := by
    norm_num [randFloatR, maxSignedShort, show randIntOf 0 = 29535 from by decide]
  have hr1 : randFloatR 1 = 22892 / 32767 := by
    norm_num [randFloatR, maxSignedShort, show randIntOf 1 = 22892 from by decide]
  have hdir : ∀ s : ℕ,
      (generateCameraRay (1/2, 1/2) ⟨0, 0, 0⟩ ⟨0, 0, 0, 1⟩ (1, 1) s).1.direction
        = Vec3.normalize
            ⟨(1/2 + (randFloatR s - 0.5) / 1) * 2 - 1,
             (1/2 + (randFloatR (cycleRandomSeed s) - 0.5) / 1) * 2 - 1,
             -1.5⟩ := by
    intro s
    show Vec3.normalize (rotateByQuaternion (Vec3.normalize _) ⟨0, 0, 0, 1⟩) = _
    rw [rotateByQuaternion_id]
    exact normalize_normalize _ (len_pos_of_z_ne _ (by norm_num))
  intro heq
  rw [hdir 0, hdir 1, hr0, hr1] at heq
  have hx := normalize_inj_x _ _ rfl rfl heq
  norm_num at hx

/-! ### A concrete ray hitting the small light sphere

`lightRay` starts at the centre of the fourth scene sphere (the small
light) and points straight up; it is used to exercise the integrator's
behaviour at a light hit. -/

noncomputable def lightRay : Ray := ⟨⟨-2.5, -0.5, -3⟩, ⟨0, 1, 0⟩⟩

/-- The hit `intersectScene` produces for `lightRay`. -/
noncomputable def lightHit : HitInfo :=
  { hit := true, t := 1e-6, position := ⟨-2.5, -0.5 + 1e-6, -3⟩, normal := ⟨0, -1, 0⟩
    material := NewLight ⟨10, 8, 6⟩ }

theorem lightRay_sphere0 :
    intersectSphere lightRay ⟨⟨-1.5, 0.5, -7⟩, 1.5, NewOrangePlastic⟩ TMIN TMAX
      = getEmptyHit := by
  have hD : sphereD lightRay ⟨⟨-1.5, 0.5, -7⟩, 1.5, NewOrangePlastic⟩ ≤ 0 := by
    unfold sphereD sphereA sphereB sphereC lightRay Vec3.dot Vec3.sub
    norm_num
  rw [intersectSphere, if_pos hD]

theorem lightRay_sphere1 :
    intersectSphere lightRay ⟨⟨1.5, 0, -5⟩, 1, NewMirror⟩ TMIN TMAX = getEmptyHit := by
  have hD : sphereD lightRay ⟨⟨1.5, 0, -5⟩, 1, NewMirror⟩ ≤ 0 := by
    unfold sphereD sphereA sphereB sphereC lightRay Vec3.dot Vec3.sub
    norm_num
  rw [intersectSphere, if_pos hD]

theorem lightRay_sphere2 :
    intersectSphere lightRay ⟨⟨2, 2, -5⟩, 0.5, NewLight ⟨3, 4, 3.5⟩⟩ TMIN TMAX
      = getEmptyHit := by
  have hD : sphereD lightRay ⟨⟨2, 2, -5⟩, 0.5, NewLight ⟨3, 4, 3.5⟩⟩ ≤ 0 := by
    unfold sphereD sphereA sphereB sphereC lightRay Vec3.dot Vec3.sub
    norm_num
  rw [intersectSphere, if_pos hD]

theorem lightRay_sphere3 :
    intersectSphere lightRay ⟨⟨-2.5, -0.5, -3⟩, 0.15, NewLight ⟨10, 8, 6⟩⟩ TMIN TMAX
      = lightHit := by
  have hA : sphereA lightRay ⟨⟨-2.5, -0.5, -3⟩, 0.15, NewLight ⟨10, 8, 6⟩⟩ = 1 := by
    norm_num [sphereA, lightRay, Vec3.dot]
  have hB : sphereB lightRay ⟨⟨-2.5, -0.5, -3⟩, 0.15, NewLight ⟨10, 8, 6⟩⟩ = 0 := by
    norm_num [sphereB, lightRay, Vec3.dot, Vec3.sub]
  have hD : sphereD lightRay ⟨⟨-2.5, -0.5, -3⟩, 0.15, NewLight ⟨10, 8, 6⟩⟩ = 0.09 := by
    rw [sphereD, hA, hB]
    norm_num [sphereC, lightRay, Vec3.dot, Vec3.sub]
  have hsq : Real.sqrt (sphereD lightRay ⟨⟨-2.5, -0.5, -3⟩, 0.15, NewLight ⟨10, 8, 6⟩⟩)
      = 0.3 := by
    rw [hD, show (0.09 : ℝ) = 0.3 ^ 2 by norm_num, Real.sqrt_sq (by norm_num)]
  have hT0 : sphereT0 lightRay ⟨⟨-2.5, -0.5, -3⟩, 0.15, NewLight ⟨10, 8, 6⟩⟩ = -0.15 := by
    unfold sphereT0
    rw [hsq, hA, hB]
    norm_num
  have hT1 : sphereT1 lightRay ⟨⟨-2.5, -0.5, -3⟩, 0.15, NewLight ⟨10, 8, 6⟩⟩ = 0.15 := by
    unfold sphereT1
    rw [hsq, hA, hB]
    norm_num
  have h1 : ¬ sphereD lightRay ⟨⟨-2.5, -0.5, -3⟩, 0.15, NewLight ⟨10, 8, 6⟩⟩ ≤ 0 := by
    rw [hD]
    norm_num
  have h2 : ¬(sphereT0 lightRay ⟨⟨-2.5, -0.5, -3⟩, 0.15, NewLight ⟨10, 8, 6⟩⟩ > TMAX
      ∨ sphereT1 lightRay ⟨⟨-2.5, -0.5, -3⟩, 0.15, NewLight ⟨10, 8, 6⟩⟩ < TMIN) := by
    rw [hT0, hT1]
    unfold TMIN TMAX
    norm_num
  rw [intersectSphere, if_neg h1, if_neg h2]
  have ht : (if sphereT1 lightRay ⟨⟨-2.5, -0.5, -3⟩, 0.15, NewLight ⟨10, 8, 6⟩⟩ > TMAX
        then TMAX
        else if sphereT0 lightRay ⟨⟨-2.5, -0.5, -3⟩, 0.15, NewLight ⟨10, 8, 6⟩⟩ < TMIN
          then TMIN
          else sphereT0 lightRay ⟨⟨-2.5, -0.5, -3⟩, 0.15, NewLight ⟨10, 8, 6⟩⟩) = 1e-6 := by
    rw [hT0, hT1]
    unfold TMIN TMAX
    norm_num
  simp only [ht]
  have hpos : Vec3.add (lightRay.origin) (Vec3.smul 1e-6 lightRay.direction)
      = (⟨-2.5, -0.5 + 1e-6, -3⟩ : Vec3) := by
    unfold lightRay Vec3.add Vec3.smul
    norm_num
  rw [hpos]
  have hinside : Vec3.len (Vec3.sub lightRay.origin ⟨-2.5, -0.5, -3⟩) < 0.15 + 0.001 := by
    unfold lightRay Vec3.sub Vec3.len Vec3.dot
    norm_num [Real.sqrt_zero]
  rw [if_pos hinside]
  have hnrm : Vec3.neg (Vec3.normalize
        (Vec3.sub (⟨-2.5, -0.5 + 1e-6, -3⟩ : Vec3) (⟨-2.5, -0.5, -3⟩ : Vec3)))
      = (⟨0, -1, 0⟩ : Vec3) := by
    have hsub : Vec3.sub (⟨-2.5, -0.5 + 1e-6, -3⟩ : Vec3) (⟨-2.5, -0.5, -3⟩ : Vec3)
        = (⟨0, 1e-6, 0⟩ : Vec3) := by
      unfold Vec3.sub
      norm_num
    rw [hsub]
    have hlen : Vec3.len (⟨0, 1e-6, 0⟩ : Vec3) = 1e-6 := by
      unfold Vec3.len Vec3.dot
      rw [show (0 : ℝ) * 0 + 1e-6 * 1e-6 + 0 * 0 = (1e-6) ^ 2 by norm_num,
        Real.sqrt_sq (by norm_num)]
    unfold Vec3.normalize
    rw [hlen]
    unfold Vec3.divs Vec3.neg
    norm_num
  rw [hnrm]
  rfl

theorem lightRay_plane0 :
    intersectPlane lightRay ⟨⟨0, 1, 0⟩, 1, wallMaterial ⟨0.8, 0.8, 0.8⟩⟩ TMIN TMAX
      = getEmptyHit := by
  have hden : ¬ |Vec3.dot lightRay.direction (⟨0, 1, 0⟩ : Vec3)| < 1e-6 := by
    unfold lightRay Vec3.dot
    norm_num
  have hT : planeT lightRay ⟨⟨0, 1, 0⟩, 1, wallMaterial ⟨0.8, 0.8, 0.8⟩⟩ = -0.5 := by
    unfold planeT lightRay Vec3.dot
    norm_num
  have hrange : planeT lightRay ⟨⟨0, 1, 0⟩, 1, wallMaterial ⟨0.8, 0.8, 0.8⟩⟩ < TMIN
      ∨ planeT lightRay ⟨⟨0, 1, 0⟩, 1, wallMaterial ⟨0.8, 0.8, 0.8⟩⟩ > TMAX := by
    rw [hT]
    unfold TMIN
    norm_num
  rw [intersectPlane, if_neg hden, if_pos hrange]

theorem lightRay_plane1 :
    intersectPlane lightRay ⟨⟨1, 0, 0⟩, 6, wallMaterial ⟨1, 0, 0⟩⟩ TMIN TMAX
      = getEmptyHit := by
  have hden : |Vec3.dot lightRay.direction (⟨1, 0, 0⟩ : Vec3)| < 1e-6 := by
    unfold lightRay Vec3.dot
    norm_num
  rw [intersectPlane, if_pos hden]

theorem lightRay_plane2 :
    intersectPlane lightRay ⟨⟨-1, 0, 0⟩, 6, wallMaterial ⟨0, 1, 0⟩⟩ TMIN TMAX
      = getEmptyHit := by
  have hden : |Vec3.dot lightRay.direction (⟨-1, 0, 0⟩ : Vec3)| < 1e-6 := by
    unfold lightRay Vec3.dot
    norm_num
  rw [intersectPlane, if_pos hden]

theorem lightRay_plane3 :
    intersectPlane lightRay ⟨⟨0, 0, 1⟩, 10, wallMaterial ⟨0.8, 0.8, 0.8⟩⟩ TMIN TMAX
      = getEmptyHit := by
  have hden : |Vec3.dot lightRay.direction (⟨0, 0, 1⟩ : Vec3)| < 1e-6 := by
    unfold lightRay Vec3.dot
    norm_num
  rw [intersectPlane, if_pos hden]

theorem lightRay_plane4_t :
    (intersectPlane lightRay ⟨⟨0, -1, 0⟩, 5, wallMaterial ⟨0.8, 0.8, 0.8⟩⟩ TMIN TMAX).t
      = 5.5 := by
  have hden : ¬ |Vec3.dot lightRay.direction (⟨0, -1, 0⟩ : Vec3)| < 1e-6 := by
    unfold lightRay Vec3.dot
    norm_num
  have hT : planeT lightRay ⟨⟨0, -1, 0⟩, 5, wallMaterial ⟨0.8, 0.8, 0.8⟩⟩ = 5.5 := by
    unfold planeT lightRay Vec3.dot
    norm_num
  have hrange : ¬(planeT lightRay ⟨⟨0, -1, 0⟩, 5, wallMaterial ⟨0.8, 0.8, 0.8⟩⟩ < TMIN
      ∨ planeT lightRay ⟨⟨0, -1, 0⟩, 5, wallMaterial ⟨0.8, 0.8, 0.8⟩⟩ > TMAX) := by
    rw [hT]
    unfold TMIN TMAX
    norm_num
  rw [intersectPlane, if_neg hden, if_neg hrange]
  exact hT

/-- For `lightRay`, the scene query returns the hit on the small light
sphere at `t = TMIN` (the ray starts inside that sphere). -/
theorem intersectScene_lightRay : intersectScene lightRay = lightHit := by
  have hBe : ∀ b : HitInfo, sceneBest b getEmptyHit = b := by
    intro b
    unfold sceneBest
    rw [if_neg]
    intro hc
    exact Bool.false_ne_true (by simpa [getEmptyHit] using hc.1)
  have hBl : sceneBest sentinelHit lightHit = lightHit := by
    unfold sceneBest
    rw [if_pos]
    refine ⟨rfl, ?_⟩
    show (1e-6 : ℝ) < sentinelHit.t
    unfold sentinelHit
    norm_num
  have hp4 : sceneBest lightHit
      (intersectPlane lightRay ⟨⟨0, -1, 0⟩, 5, wallMaterial ⟨0.8, 0.8, 0.8⟩⟩ TMIN TMAX)
        = lightHit := by
    unfold sceneBest
    rw [if_neg]
    intro hc
    have := hc.2
    rw [lightRay_plane4_t] at this
    have hl : lightHit.t = 1e-6 := rfl
    rw [hl] at this
    norm_num at this
  show List.foldl sceneBest sentinelHit (sceneHits lightRay) = lightHit
  unfold sceneHits sceneSpheres scenePlanes
  simp only [List.map_cons, List.map_nil, List.cons_append, List.nil_append,
    List.foldl_cons, List.foldl_nil]
  rw [lightRay_sphere0, lightRay_sphere1, lightRay_sphere2, lightRay_sphere3,
    lightRay_plane0, lightRay_plane1, lightRay_plane2, lightRay_plane3]
  simp only [hBe]
  rw [hBl, hp4]

/-! ### The cosine-weighted sample drawn at the light hit -/

theorem cycleRandomSeed_zero : cycleRandomSeed 0 = 1013904223 := by decide

theorem cycleRandomSeed_state1 : cycleRandomSeed 1013904223 = 1196435762 := by decide

theorem randFloatR_zero : randFloatR 0 = 29535 / 32767 := by
  norm_num [randFloatR, maxSignedShort, show randIntOf 0 = 29535 from by decide]

theorem randFloatR_state1 : randFloatR 1013904223 = 10546 / 32767 := by
  norm_num [randFloatR, maxSignedShort, show randIntOf 1013904223 = 10546 from by decide]

/-- First `randFloat` drawn from state 0. -/
noncomputable def xi0 : ℝ := 29535 / 32767

/-- Azimuth angle built from the second `randFloat` drawn from state 0. -/
noncomputable def phi0 : ℝ := 2 * Real.pi * (10546 / 32767)

/-- The world-space direction sampled about normal `(0,-1,0)` from RNG
state 0. -/
noncomputable def sampleDir0 : Vec3 :=
  ⟨-(Real.sin phi0 * Real.sqrt (1 - xi0)), -Real.sqrt xi0,
    Real.cos phi0 * Real.sqrt (1 - xi0)⟩

theorem nonParallelOf_lightNormal : nonParallelOf ⟨0, -1, 0⟩ = ⟨1, 0, 0⟩ := by
  unfold nonParallelOf
  rw [if_pos]
  show |(-1 : ℝ)| > 0.9
  norm_num

theorem frameTangent_lightNormal : frameTangent ⟨0, -1, 0⟩ = ⟨0, 0, 1⟩ := by
  unfold frameTangent
  rw [nonParallelOf_lightNormal]
  have hcr : Vec3.cross ⟨0, -1, 0⟩ ⟨1, 0, 0⟩ = (⟨0, 0, 1⟩ : Vec3) := by
    unfold Vec3.cross
    norm_num
  rw [hcr]
  have hlen : Vec3.len (⟨0, 0, 1⟩ : Vec3) = 1 := by
    unfold Vec3.len Vec3.dot
    norm_num [Real.sqrt_one]
  unfold Vec3.normalize
  rw [hlen]
  unfold Vec3.divs
  norm_num

theorem frameBitangent_lightNormal : frameBitangent ⟨0, -1, 0⟩ = ⟨-1, 0, 0⟩ := by
  unfold frameBitangent
  rw [frameTangent_lightNormal]
  unfold Vec3.cross
  norm_num

theorem sample_lightNormal :
    sampleDirectionCosineWeighted ⟨0, -1, 0⟩ 0
      = (Real.sqrt xi0 / Real.pi, sampleDir0, 1196435762) := by
  unfold sampleDirectionCosineWeighted
  rw [randFloatR_zero, cycleRandomSeed_zero]
  dsimp only
  rw [randFloatR_state1, cycleRandomSeed_state1,
    frameTangent_lightNormal, frameBitangent_lightNormal]
  unfold sampleDir0 xi0 phi0 Vec3.add Vec3.smul
  simp only [Prod.mk.injEq, Vec3.mk.injEq]
  norm_num

theorem sampleDir0_len : Vec3.len sampleDir0 = 1 := by
  have h1 : Real.sqrt (1 - xi0) * Real.sqrt (1 - xi0) = 1 - xi0 :=
    Real.mul_self_sqrt (by unfold xi0; norm_num)
  have h2 : Real.sqrt xi0 * Real.sqrt xi0 = xi0 :=
    Real.mul_self_sqrt (by unfold xi0; norm_num)
  have h3 : Real.sin phi0 ^ 2 + Real.cos phi0 ^ 2 = 1 := Real.sin_sq_add_cos_sq phi0
  unfold Vec3.len Vec3.dot sampleDir0
  have key : -(Real.sin phi0 * Real.sqrt (1 - xi0)) * -(Real.sin phi0 * Real.sqrt (1 - xi0))
        + -Real.sqrt xi0 * -Real.sqrt xi0
        + Real.cos phi0 * Real.sqrt (1 - xi0) * (Real.cos phi0 * Real.sqrt (1 - xi0))
      = 1 := by
    linear_combination (Real.sin phi0 * Real.sin phi0) * h1
      + (Real.cos phi0 * Real.cos phi0) * h1 + h2 + (1 - xi0) * h3
  rw [key, Real.sqrt_one]

theorem normalize_sampleDir0 : Vec3.normalize sampleDir0 = sampleDir0 := by
  show Vec3.divs sampleDir0 (Vec3.len sampleDir0) = sampleDir0
  rw [sampleDir0_len]
  unfold Vec3.divs sampleDir0
  norm_num

theorem geom_sampleDir0 (m : Material) :
    getGeometricTerm m ⟨0, -1, 0⟩ sampleDir0 = Real.sqrt xi0 := by
  unfold getGeometricTerm Vec3.dot sampleDir0
  have hd : (0 : ℝ) * -(Real.sin phi0 * Real.sqrt (1 - xi0))
        + (-1) * -Real.sqrt xi0 + 0 * (Real.cos phi0 * Real.sqrt (1 - xi0))
      = Real.sqrt xi0 := by ring
  rw [hd]
  exact max_eq_left (Real.sqrt_nonneg _)

theorem sqrt_xi0_large : (1e-6 : ℝ) ≤ Real.sqrt xi0 := by
  have h1 : (1e-6 : ℝ) = Real.sqrt 1e-12 := by
    rw [show (1e-12 : ℝ) = (1e-6) ^ 2 by norm_num, Real.sqrt_sq (by norm_num)]
  rw [h1]
  apply Real.sqrt_le_sqrt
  unfold xi0
  norm_num

/-! ### Bounce counting in the integrator loop -/

theorem tracePathAux_count_pos (fuel : ℕ) (ray : Ray) (tp rad : Vec3) (s : ℕ)
    (h : 0 < fuel) : 1 ≤ (tracePathAux fuel ray tp rad s).2.2 := by
  cases fuel with
  | zero => exact absurd h (lt_irrefl 0)
  | succ n =>
    simp only [tracePathAux]
    split_ifs <;> simp

theorem tracePathAux_continue_count (fuel : ℕ) (ray : Ray) (tp rad : Vec3) (s : ℕ)
    (hhit : (intersectScene ray).hit = true)
    (hgeom : ¬ getGeometricTerm (intersectScene ray).material (intersectScene ray).normal
        (Vec3.normalize (sampleDirectionCosineWeighted (intersectScene ray).normal s).2.1)
          < 1e-6) :
    2 ≤ (tracePathAux (fuel + 2) ray tp rad s).2.2 := by
  have heq : fuel + 2 = (fuel + 1) + 1 := rfl
  rw [heq]
  simp only [tracePathAux]
  rw [if_neg (by rw [hhit]; exact fun hc => Bool.noConfusion hc), if_neg hgeom]
  exact Nat.succ_le_succ (tracePathAux_count_pos (fuel + 1) _ _ _ _ (Nat.succ_pos fuel))

/-- BRDF of a material with zero diffuse and zero specular (as all the
scene's lights have) evaluates to zero. -/
theorem getReflectance_dark (m : Material) (n i o : Vec3)
    (hd : m.diffuse = Vec3.zero) (hs : m.specular = Vec3.zero) :
    getReflectance m n i o = Vec3.zero := by
  unfold getReflectance
  rw [hd, hs]
  unfold Vec3.divs Vec3.add Vec3.smul Vec3.zero
  simp

/-- Once the throughput is zero, the remaining bounces add no radiance. -/
theorem tracePathAux_zero_throughput (fuel : ℕ) (ray : Ray) (rad : Vec3) (s : ℕ) :
    (tracePathAux fuel ray Vec3.zero rad s).1 = rad := by
  induction fuel generalizing ray rad s with
  | zero => rfl
  | succ n ih =>
    simp only [tracePathAux]
    by_cases h1 : (intersectScene ray).hit = false
    · rw [if_pos h1]
    · rw [if_neg h1]
      have hrad : Vec3.add rad (Vec3.cmul Vec3.zero (intersectScene ray).material.emissive)
          = rad := by
        cases rad with
        | mk a b c =>
          unfold Vec3.add Vec3.cmul Vec3.zero
          simp
      have htp : ∀ (g p : ℝ) (r : Vec3),
          Vec3.divs (Vec3.smul g (Vec3.cmul Vec3.zero r)) p = Vec3.zero := by
        intro g p r
        cases r with
        | mk a b c =>
          unfold Vec3.divs Vec3.smul Vec3.cmul Vec3.zero
          simp
      simp only [hrad, htp]
      split_ifs with h2
      · rfl
      · exact ih _ _ _

theorem vec_add_zero_cmul_one (v : Vec3) :
    Vec3.add Vec3.zero (Vec3.cmul Vec3.one v) = v := by
  cases v with
  | mk a b c =>
    unfold Vec3.add Vec3.cmul Vec3.one Vec3.zero
    simp

/-- A bounce whose hit has zero diffuse and specular (a light) leaves the
remaining path with zero throughput, so the whole sample equals that
hit's emissive. -/
theorem tracePathAux_light_first (fuel : ℕ) (ray : Ray) (s : ℕ)
    (hhit : (intersectScene ray).hit = true)
    (hd : (intersectScene ray).material.diffuse = Vec3.zero)
    (hs : (intersectScene ray).material.specular = Vec3.zero) :
    (tracePathAux (fuel + 1) ray Vec3.one Vec3.zero s).1
      = (intersectScene ray).material.emissive := by
  simp only [tracePathAux]
  rw [if_neg (by rw [hhit]; exact fun hc => Bool.noConfusion hc)]
  have htp0 : ∀ (g p : ℝ),
      Vec3.divs (Vec3.smul g (Vec3.cmul Vec3.one Vec3.zero)) p = Vec3.zero := by
    intro g p
    unfold Vec3.divs Vec3.smul Vec3.cmul Vec3.one Vec3.zero
    simp
  rw [getReflectance_dark (intersectScene ray).material (intersectScene ray).normal
    ray.direction
    (Vec3.normalize (sampleDirectionCosineWeighted (intersectScene ray).normal s).2.1) hd hs]
  simp only [vec_add_zero_cmul_one, htp0]
  split_ifs with h2
  · rfl
  · exact tracePathAux_zero_throughput fuel _ _ _

/-- C1 (counterexample): for the concrete camera ray `lightRay` the first
scene hit is a light (`|emissive| > 0`), yet the integrator does not
terminate there — a second scene intersection is traced off the light
surface (the bounce count from RNG state 0 is at least 2). -/
theorem tracePath_light_not_terminated :
    0 < Vec3.len (intersectScene lightRay).material.emissive
      ∧ 2 ≤ (tracePath lightRay 0).2.2 := by
  constructor
  · rw [intersectScene_lightRay]
    show 0 < Vec3.len (⟨10, 8, 6⟩ : Vec3)
    unfold Vec3.len Vec3.dot
    apply Real.sqrt_pos.mpr
    norm_num
  · show 2 ≤ (tracePathAux 5 lightRay Vec3.one Vec3.zero 0).2.2
    rw [show (5 : ℕ) = 3 + 2 from rfl]
    apply tracePathAux_continue_count
    · rw [intersectScene_lightRay]
      rfl
    · rw [intersectScene_lightRay]
      have hn : lightHit.normal = (⟨0, -1, 0⟩ : Vec3) := rfl
      rw [hn, sample_lightNormal]
      dsimp only
      rw [normalize_sampleDir0, geom_sampleDir0]
      exact not_lt.mpr sqrt_xi0_large

/-- C1 (amended): on every hit the integrator adds
`throughput * emissive` to the radiance (zero for non-light hits, whose
emissive is zero) and does not terminate the loop at light hits; instead
the light's zero diffuse and specular make the BRDF zero, so the
throughput becomes zero and all later bounces add nothing — the sample
for a path whose first hit is a light equals that light's emissive even
though further bounces are traced. -/
theorem tracePath_light_absorbs :
    (∀ (m : Material) (n i o : Vec3), m.diffuse = Vec3.zero → m.specular = Vec3.zero →
        getReflectance m n i o = Vec3.zero)
      ∧ (∀ (fuel : ℕ) (ray : Ray) (rad : Vec3) (s : ℕ),
          (tracePathAux fuel ray Vec3.zero rad s).1 = rad)
      ∧ (∀ (fuel : ℕ) (ray : Ray) (s : ℕ),
          (intersectScene ray).hit = true →
          (intersectScene ray).material.diffuse = Vec3.zero →
          (intersectScene ray).material.specular = Vec3.zero →
          (tracePathAux (fuel + 1) ray Vec3.one Vec3.zero s).1
            = (intersectScene ray).material.emissive) :=
  ⟨fun m n i o hd hs => getReflectance_dark m n i o hd hs,
    fun fuel ray rad s => tracePathAux_zero_throughput fuel ray rad s,
    fun fuel ray s hhit hd hs => tracePathAux_light_first fuel ray s hhit hd hs⟩

/-- C1 (witness): the amended theorem applied to `lightRay` — its first
hit is a light and the five-bounce sample equals the light's emissive. -/
theorem tracePath_light_absorbs_witness :
    (intersectScene lightRay).hit = true
      ∧ (intersectScene lightRay).material.diffuse = Vec3.zero
      ∧ (intersectScene lightRay).material.specular = Vec3.zero
      ∧ (tracePathAux (4 + 1) lightRay Vec3.one Vec3.zero 0).1
          = (intersectScene lightRay).material.emissive := by
  have h1 : (intersectScene lightRay).hit = true := by
    rw [intersectScene_lightRay]
    rfl
  have h2 : (intersectScene lightRay).material.diffuse = Vec3.zero := by
    rw [intersectScene_lightRay]
    rfl
  have h3 : (intersectScene lightRay).material.specular = Vec3.zero := by
    rw [intersectScene_lightRay]
    rfl
  exact ⟨h1, h2, h3, tracePath_light_absorbs.2.2 4 lightRay 0 h1 h2 h3⟩

end Renderer
